import Mathlib

/-!
Shallow embedding of the nixpacks plan-derivation and artifact-generation
pipeline (`src/nixpacks/mod.rs`), together with theorems checking the
natural-language specification against it.

The repository ships only `src/main.rs` and `src/nixpacks/mod.rs`; the
submodules `app.rs`, `environment.rs`, `pkg.rs`, `plan.rs` and the
`providers` module are declared (`pub mod app;` etc.) but their sources are
not present.  Data types and operations from those submodules are modelled
from the specification and marked as such in their doc comments; everything
in `mod.rs` is translated directly from the Rust source.
-/

namespace Nixpacks

/-! ## String helpers modelling the Rust std operations used by `mod.rs` -/

/-- Association-list lookup with decidable string equality: the first pair
whose key equals `k` provides the value.  Models `BTreeMap::get` (on lists
whose keys are unique) and is also used for the modelled `App` file table. -/
def assocLookup (k : String) : List (String × String) → Option String
  | [] => none
  | (k0, v0) :: rest => if k = k0 then some v0 else assocLookup k rest

/-- Models Rust `str::starts_with` on string slices. -/
def rustStartsWith (s pre : String) : Bool :=
  pre.data.isPrefixOf s.data

/-- Models Rust `str::trim`: drop whitespace from both ends.  (Rust trims
Unicode `White_Space`; `Char.isWhitespace` covers the ASCII whitespace that
can occur in the inputs considered here.) -/
def rustTrim (s : String) : String :=
  ⟨((s.data.dropWhile Char.isWhitespace).reverse.dropWhile Char.isWhitespace).reverse⟩

/-- Fuel-indexed worker for `rustReplace`.  Replaces each non-overlapping
occurrence of `pat` from left to right, like Rust `str::replace`.  The fuel
is only a termination device: one unit is spent per emitted chunk, and a
call with `fuel = length of the list` and non-empty `pat` never exhausts it. -/
def replaceFuel (pat rep : List Char) : Nat → List Char → List Char
  | _, [] => []
  | 0, l => l
  | fuel + 1, c :: rest =>
    if pat.isPrefixOf (c :: rest) then
      rep ++ replaceFuel pat rep fuel (List.drop pat.length (c :: rest))
    else
      c :: replaceFuel pat rep fuel rest

/-- Models Rust `str::replace s pat rep`: every non-overlapping occurrence of
`pat` in `s`, scanned left to right, is replaced by `rep`.  (For the empty
pattern we return `s` unchanged; the only call site in the source uses the
non-empty pattern `"web: "`.) -/
def rustReplace (s pat rep : String) : String :=
  if pat.data.isEmpty then s
  else ⟨replaceFuel pat.data rep.data s.data.length s.data⟩

/-! ## Data model -/

/-- Modelled from the spec: `Pkg` (C1, §3, `pkg.rs` missing from the
sources).  A package reference: a `name`, optionally with a catalog
`override` expression. -/
structure Pkg where
  name : String
  override : Option String
deriving DecidableEq

/-- Modelled from the spec: `Pkg::to_nix_string` (§3 rendering rule,
`pkg.rs` missing).  A bare name renders as `name`; a name with override
renders as `(name.override \x7b …override… \x7d)` with the override emitted
verbatim inside the braces (cf. the §8 scenario
`nodejs (yarn.override \x7b nodejs = nodejs-16_x \x7d)`). -/
def Pkg.to_nix_string (p : Pkg) : String :=
  match p.override with
  | none => p.name
  | some o => "(" ++ p.name ++ ".override \x7b " ++ o ++ " \x7d)"

/-- Modelled from the spec: `EnvironmentVariables` (§3, `environment.rs`
missing).  The source type is an ordered map from variable name to value
(`BTreeMap<String, String>`: §3 "keys unique", §4.9 keys emitted in sorted
order by plain iteration); we model it as an association list kept in
ascending key order by `mapInsert`. -/
abbrev EnvironmentVariables := List (String × String)

/-- Ordered-map insertion: replaces the value if the key is present,
otherwise inserts at the ordered position.  Models `BTreeMap::insert`. -/
def mapInsert : EnvironmentVariables → String → String → EnvironmentVariables
  | [], k, v => [(k, v)]
  | (k0, v0) :: rest, k, v =>
    if k = k0 then (k, v) :: rest
    else if k < k0 then (k, v) :: (k0, v0) :: rest
    else (k0, v0) :: mapInsert rest k v

/-- Models collecting an iterator of key-value pairs into the ordered map
(`FromIterator for BTreeMap`): pairs are inserted left to right, so for
duplicate keys the **last** pair wins. -/
def collectVars (l : List (String × String)) : EnvironmentVariables :=
  l.foldl (fun m kv => mapInsert m kv.1 kv.2) []

/-- Modelled from the spec: `Environment` (C3, §3, `environment.rs`
missing).  An immutable mapping from variable name to value. -/
structure Environment where
  variables' : EnvironmentVariables

/-- Modelled from the spec: `Environment::clone_variables` (§3 "deep
snapshot", `environment.rs` missing): a copy of the variable mapping.
(The source field is named `variables`, which is a reserved token here.) -/
def Environment.clone_variables (e : Environment) : EnvironmentVariables :=
  e.variables'

/-- Modelled from the spec: `App` (C2, §3, `app.rs` missing).  A read-only
view over the source tree: a root path and a table of relative file names
with their UTF-8 contents. -/
structure App where
  source : String
  files : List (String × String)

/-- Modelled from the spec: `App::includes_file` (§3 existence check,
`app.rs` missing). -/
def App.includes_file (a : App) (name : String) : Bool :=
  (assocLookup name a.files).isSome

/-- Modelled from the spec: `App::read_file` (§3 read to UTF-8 string,
`app.rs` missing); reading an absent file is an error. -/
def App.read_file (a : App) (name : String) : Except String String :=
  match assocLookup name a.files with
  | some contents => .ok contents
  | none => .error ("could not read " ++ name)

/-- `BuildPlan` (`plan.rs` missing; fields from §3 and their construction in
`AppBuilder::plan`). -/
structure BuildPlan where
  version : String
  nixpkgs_archive : Option String
  pkgs : List Pkg
  install_cmd : Option String
  build_cmd : Option String
  start_cmd : Option String
  variables' : EnvironmentVariables
deriving DecidableEq

/-- Modelled from the spec: the `Provider` trait (§4.5, `providers` module
missing from the sources).  Each operation is a pure, fallible function of
`(App, Environment)`, mirroring the trait methods returning `Result`. -/
structure Provider where
  name : String
  detect : App → Environment → Except String Bool
  pkgs : App → Environment → Except String (List Pkg)
  install_cmd : App → Environment → Except String (Option String)
  suggested_build_cmd : App → Environment → Except String (Option String)
  suggested_start_command : App → Environment → Except String (Option String)
  get_environment_variables : App → Environment → Except String EnvironmentVariables

/-- `AppBuilderOptions` from `mod.rs` lines 32-40. -/
structure AppBuilderOptions where
  custom_build_cmd : Option String
  custom_start_cmd : Option String
  custom_pkgs : List Pkg
  pin_pkgs : Bool
  out_dir : Option String
  plan_path : Option String

/-- `AppBuilderOptions::empty` from `mod.rs` lines 42-53. -/
def AppBuilderOptions.empty : AppBuilderOptions where
  custom_build_cmd := none
  custom_start_cmd := none
  custom_pkgs := []
  pin_pkgs := false
  out_dir := none
  plan_path := none

/-- `AppBuilder` from `mod.rs` lines 55-62 (the `logger` field only prints
and is omitted). -/
structure AppBuilder where
  name : Option String
  app : App
  environment : Environment
  options : AppBuilderOptions
  provider : Option Provider

/-- `NIX_PACKS_VERSION` from `mod.rs` line 27. -/
def NIX_PACKS_VERSION : String := "0.0.1"

/-- `NIXPKGS_ARCHIVE` from `mod.rs` line 30. -/
def NIXPKGS_ARCHIVE : String := "30d3d79b7d3607d56546dd2a6b49e156ba0ec634"

/-! ## Operations of `AppBuilder` (`mod.rs`) -/

/-- Rust's `?` operator on `Result`: propagate the error, or continue with
the success value. -/
def ebind (r : Except String α) (f : α → Except String β) : Except String β :=
  match r with
  | .error e => .error e
  | .ok a => f a

/-- Models `anyhow`'s `.context(msg)`: success values pass through, errors
are wrapped with the stage message. -/
def withContext (msg : String) (r : Except String α) : Except String α :=
  match r with
  | .ok a => .ok a
  | .error e => .error (msg ++ ": " ++ e)

/-- `AppBuilder::parse_procfile` (`mod.rs` lines 275-288): when a file named
`Procfile` exists, read it; if the contents start with `"web: "`, return
every occurrence of `"web: "` removed from the whole contents, trimmed;
otherwise (and when the file is absent) return `none`. -/
def AppBuilder.parse_procfile (b : AppBuilder) : Except String (Option String) :=
  if App.includes_file b.app "Procfile" then
    ebind (App.read_file b.app "Procfile") (fun contents =>
      if rustStartsWith contents "web: " then
        .ok (some (rustTrim (rustReplace contents "web: " "")))
      else
        .ok none)
  else
    .ok none

/-- `AppBuilder::detect` (`mod.rs` lines 263-273): walk the providers in
order; the first whose `detect` succeeds with `true` is stored in
`self.provider` and the loop breaks; a `detect` error propagates; if the
list is exhausted without a match, the builder is returned unchanged.
The Rust method mutates `self` and returns `Ok(())`; here the updated
builder is the return value. -/
def AppBuilder.detect (b : AppBuilder) (providers : List Provider) : Except String AppBuilder :=
  match providers with
  | [] => .ok b
  | provider :: rest =>
    ebind (provider.detect b.app b.environment) (fun matches' =>
      if matches' then .ok { b with provider := some provider }
      else AppBuilder.detect b rest)

/-- `AppBuilder::get_pkgs` (`mod.rs` lines 190-202): with an active
provider, a clone of `custom_pkgs` with the provider's packages appended;
otherwise just `custom_pkgs`. -/
def AppBuilder.get_pkgs (b : AppBuilder) : Except String (List Pkg) :=
  match b.provider with
  | some provider =>
    ebind (provider.pkgs b.app b.environment) (fun provider_pkgs =>
      .ok (b.options.custom_pkgs ++ provider_pkgs))
  | none => .ok b.options.custom_pkgs

/-- `AppBuilder::get_variables` (`mod.rs` lines 204-219): clone the
environment's variables; with an active provider, collect the chain of the
provider's variables followed by the environment's variables into the map
(`provider_variables.into_iter().chain(variables).collect()` — with the
map's `FromIterator`, the later, environment entries overwrite provider
entries of the same key). -/
def AppBuilder.get_variables (b : AppBuilder) : Except String EnvironmentVariables :=
  let variables' := Environment.clone_variables b.environment
  match b.provider with
  | some provider =>
    ebind (provider.get_environment_variables b.app b.environment)
      (fun provider_variables => .ok (collectVars (provider_variables ++ variables')))
  | none => .ok variables'

/-- `AppBuilder::get_install_cmd` (`mod.rs` lines 221-228). -/
def AppBuilder.get_install_cmd (b : AppBuilder) : Except String (Option String) :=
  match b.provider with
  | some provider => provider.install_cmd b.app b.environment
  | none => .ok none

/-- `AppBuilder::get_build_cmd` (`mod.rs` lines 230-243):
`custom_build_cmd.or(suggested_build_cmd)`. -/
def AppBuilder.get_build_cmd (b : AppBuilder) : Except String (Option String) :=
  ebind (match b.provider with
         | some provider => provider.suggested_build_cmd b.app b.environment
         | none => .ok none)
    (fun suggested_build_cmd => .ok (b.options.custom_build_cmd.or suggested_build_cmd))

/-- `AppBuilder::get_start_cmd` (`mod.rs` lines 245-261):
`custom_start_cmd.or(procfile_cmd).or(suggested_start_cmd)`. -/
def AppBuilder.get_start_cmd (b : AppBuilder) : Except String (Option String) :=
  ebind (AppBuilder.parse_procfile b) (fun procfile_cmd =>
    ebind (match b.provider with
           | some provider => provider.suggested_start_command b.app b.environment
           | none => .ok none)
      (fun suggested_start_cmd =>
        .ok ((b.options.custom_start_cmd.or procfile_cmd).or suggested_start_cmd)))

/-- `AppBuilder::plan` (`mod.rs` lines 82-109).  The Rust method mutates
`self.provider` through `detect` and returns the plan; here the pair of the
plan and the updated builder is returned. -/
def AppBuilder.plan (b : AppBuilder) (providers : List Provider) :
    Except String (BuildPlan × AppBuilder) :=
  ebind (withContext "Detecting provider" (AppBuilder.detect b providers)) (fun b2 =>
  ebind (withContext "Getting packages" (AppBuilder.get_pkgs b2)) (fun pkgs =>
  ebind (withContext "Generating install command" (AppBuilder.get_install_cmd b2)) (fun install_cmd =>
  ebind (withContext "Generating build command" (AppBuilder.get_build_cmd b2)) (fun build_cmd =>
  ebind (withContext "Generating start command" (AppBuilder.get_start_cmd b2)) (fun start_cmd =>
  ebind (withContext "Getting plan variables" (AppBuilder.get_variables b2)) (fun variables' =>
    .ok ({ version := NIX_PACKS_VERSION
           nixpkgs_archive := if b2.options.pin_pkgs then some NIXPKGS_ARCHIVE else none
           pkgs := pkgs
           install_cmd := install_cmd
           build_cmd := build_cmd
           start_cmd := start_cmd
           variables' := variables' }, b2)))))))

/-! ## Renderers (`mod.rs`) -/

/-- The string computed by `AppBuilder::gen_nix` (`mod.rs` lines 307-341):
the `formatdoc!` template with the import expression and the space-joined
package renderings substituted.  `formatdoc!` strips the common leading
indentation, so the emitted text is exactly the template lines — including
the blank line after the first line — followed by a terminating newline. -/
def gen_nix_text (plan : BuildPlan) : String :=
  let nixpkgs := String.intercalate " " (plan.pkgs.map Pkg.to_nix_string)
  let pkg_import :=
    match plan.nixpkgs_archive with
    | some archive =>
      "import (fetchTarball \"https://github.com/NixOS/nixpkgs/archive/" ++ archive ++ ".tar.gz\")"
    | none => "import <nixpkgs>"
  "\x7b \x7d:\n\nlet\n    pkgs = " ++ pkg_import ++ " \x7b \x7d;\nin with pkgs;\nbuildEnv \x7b\n    name = \"env\";\n    paths = [\n        " ++ nixpkgs ++ "\n    ];\n\x7d\n"

/-- `AppBuilder::gen_nix` (`mod.rs` lines 307-341): computes the Nix
expression text and returns it wrapped in `Ok`. -/
def AppBuilder.gen_nix (plan : BuildPlan) : Except String String :=
  .ok (gen_nix_text plan)

/-- The string computed by `AppBuilder::gen_dockerfile` (`mod.rs` lines
343-399): the `formatdoc!` Dockerfile template with the `ENV` lines (one per
plan variable, in the map's iteration order), and the optional
install/build/start steps substituted (empty string when absent). -/
def gen_dockerfile_text (plan : BuildPlan) : String :=
  let args_string :=
    String.intercalate "\n"
      (plan.variables'.map (fun var => "ENV " ++ var.1 ++ "=\x27" ++ var.2 ++ "\x27"))
  let install_cmd := match plan.install_cmd with | some cmd => "RUN " ++ cmd | none => ""
  let build_cmd := match plan.build_cmd with | some cmd => "RUN " ++ cmd | none => ""
  let start_cmd := match plan.start_cmd with | some cmd => "CMD " ++ cmd | none => ""
  "FROM nixos/nix\n\nRUN nix-channel --update\n\nRUN mkdir /app\nCOPY environment.nix /app\nWORKDIR /app\n\n# Load Nix environment\nRUN nix-env -if environment.nix\n\n# Load environment variables\n" ++ args_string ++ "\n\nCOPY . /app\n\n# Install\n" ++ install_cmd ++ "\n\n# Build\n" ++ build_cmd ++ "\n\n# Start\n" ++ start_cmd ++ "\n"

/-- `AppBuilder::gen_dockerfile` (`mod.rs` lines 343-399): computes the
Dockerfile text and returns it wrapped in `Ok`. -/
def AppBuilder.gen_dockerfile (plan : BuildPlan) : Except String String :=
  .ok (gen_dockerfile_text plan)

/-! ## Temp-directory lifecycle of `AppBuilder::do_build` (`mod.rs` lines 132-188)

`do_build` computes the destination with

  `match &self.options.out_dir \x7b Some(dir) => dir.clone(), None => \x7b let
  tmp = TempDir::new("nixpacks")?; let path = tmp.path()...; path.to_string() \x7d \x7d`

The `TempDir` guard `tmp` is a local of the `None` match arm and only the
extracted path `String` leaves the arm, so `tmp` is dropped — which deletes
the directory — as soon as the arm finishes, before the `cp` source copy and
the two artifact writes.  The event trace below records this ordering. -/

/-- Externally visible steps of `do_build`, in particular the temp-directory
lifecycle (`createTempDir` = `TempDir::new`, `dropTempDir` = the `TempDir`
destructor removing the directory). -/
inductive BuildEvent where
  | createTempDir
  | dropTempDir
  | copySource
  | writeEnvironmentNix
  | writeDockerfile
  | dockerBuild
deriving DecidableEq

/-- Ordered event trace of `AppBuilder::do_build` (`mod.rs` lines 132-188)
as a function of `options.out_dir` and of whether the external `cp`
succeeds.  With `out_dir = none` the temp directory is created and — because
the guard dies at the end of the match arm — immediately deleted; then the
source copy runs (on failure `do_build` bails right after it), then the two
artifact writes, then (only when `out_dir = none`) the docker build.  No
further temp-directory deletion event ever occurs. -/
def do_build_events (out_dir : Option String) (copy_ok : Bool) : List BuildEvent :=
  let tempEvents : List BuildEvent :=
    match out_dir with
    | some _ => []
    | none => [BuildEvent.createTempDir, BuildEvent.dropTempDir]
  if copy_ok then
    tempEvents ++ [BuildEvent.copySource, BuildEvent.writeEnvironmentNix, BuildEvent.writeDockerfile] ++
      (match out_dir with
       | some _ => []
       | none => [BuildEvent.dockerBuild])
  else
    tempEvents ++ [BuildEvent.copySource]

/-! ## Helper lemmas -/

theorem withContext_ok {α : Type} {msg : String} {r : Except String α} {a : α} :
    withContext msg r = .ok a ↔ r = .ok a := by
  cases r <;> simp [withContext]

theorem ebind_ok {α β : Type} {r : Except String α} {f : α → Except String β}
    {x : β} (h : ebind r f = .ok x) : ∃ a, r = .ok a ∧ f a = .ok x := by
  cases r with
  | error e => simp [ebind] at h
  | ok a => exact ⟨a, rfl, h⟩

/-- `detect` only ever writes the `provider` field: every other field of the
returned builder agrees with the input builder. -/
theorem detect_ok_fields {b b2 : AppBuilder} {ps : List Provider}
    (h : AppBuilder.detect b ps = .ok b2) :
    b2.name = b.name ∧ b2.app = b.app ∧ b2.environment = b.environment ∧
      b2.options = b.options := by
  induction ps with
  | nil =>
    rw [AppBuilder.detect] at h
    cases h
    exact ⟨rfl, rfl, rfl, rfl⟩
  | cons q rest ih =>
    rw [AppBuilder.detect] at h
    obtain ⟨m, _, hf⟩ := ebind_ok h
    cases m with
    | true => cases hf; exact ⟨rfl, rfl, rfl, rfl⟩
    | false => exact ih hf

/-- When no provider in the list detects, `detect` succeeds and returns the
builder unchanged (in the source: the loop never assigns `self.provider`). -/
theorem detect_of_all_false {b : AppBuilder} {ps : List Provider}
    (h : ∀ q ∈ ps, q.detect b.app b.environment = .ok false) :
    AppBuilder.detect b ps = .ok b := by
  induction ps with
  | nil => rfl
  | cons q rest ih =>
    rw [AppBuilder.detect]
    rw [h q (List.mem_cons_self q rest)]
    exact ih fun q' hq' => h q' (List.mem_cons_of_mem q hq')

/-- When every provider before `p` fails to detect and `p` detects, `detect`
binds `p`, whatever follows `p` in the list. -/
theorem detect_first_match {b : AppBuilder} {ps1 : List Provider} {p : Provider}
    (ps2 : List Provider)
    (h1 : ∀ q ∈ ps1, q.detect b.app b.environment = .ok false)
    (h2 : p.detect b.app b.environment = .ok true) :
    AppBuilder.detect b (ps1 ++ p :: ps2) = .ok { b with provider := some p } := by
  induction ps1 with
  | nil =>
    rw [List.nil_append, AppBuilder.detect, h2]
    rfl
  | cons q rest ih =>
    rw [List.cons_append, AppBuilder.detect]
    rw [h1 q (List.mem_cons_self q rest)]
    exact ih fun q' hq' => h1 q' (List.mem_cons_of_mem q hq')

/-- Inversion of a successful `plan` run: the returned builder is the result
of `detect`, every plan field is the value produced by the corresponding
getter on that builder, and the version/archive fields are the literals of
`mod.rs` lines 94-100. -/
theorem plan_ok_inv {b bb : AppBuilder} {providers : List Provider} {p : BuildPlan}
    (h : AppBuilder.plan b providers = .ok (p, bb)) :
    AppBuilder.detect b providers = .ok bb ∧
    AppBuilder.get_pkgs bb = .ok p.pkgs ∧
    AppBuilder.get_install_cmd bb = .ok p.install_cmd ∧
    AppBuilder.get_build_cmd bb = .ok p.build_cmd ∧
    AppBuilder.get_start_cmd bb = .ok p.start_cmd ∧
    AppBuilder.get_variables bb = .ok p.variables' ∧
    p.version = NIX_PACKS_VERSION ∧
    p.nixpkgs_archive = (if b.options.pin_pkgs then some NIXPKGS_ARCHIVE else none) := by
  rw [AppBuilder.plan] at h
  obtain ⟨b2, hdet, h⟩ := ebind_ok h
  obtain ⟨pkgs, hpkgs, h⟩ := ebind_ok h
  obtain ⟨install_cmd, hinstall, h⟩ := ebind_ok h
  obtain ⟨build_cmd, hbuild, h⟩ := ebind_ok h
  obtain ⟨start_cmd, hstart, h⟩ := ebind_ok h
  obtain ⟨variables', hvars, h⟩ := ebind_ok h
  rw [withContext_ok] at hdet hpkgs hinstall hbuild hstart hvars
  have hopts := (detect_ok_fields hdet).2.2.2
  cases h
  exact ⟨hdet, hpkgs, hinstall, hbuild, hstart, hvars, rfl, by rw [hopts]⟩

/-! ## Ordered-map lemmas (for the variable-merge claims) -/

theorem assocLookup_mapInsert_self (m : EnvironmentVariables) (k v : String) :
    assocLookup k (mapInsert m k v) = some v := by
  induction m with
  | nil => simp [mapInsert, assocLookup]
  | cons kv rest ih =>
    obtain ⟨k0, v0⟩ := kv
    by_cases hk : k = k0
    · simp [mapInsert, hk, assocLookup]
    · by_cases hlt : k < k0
      · simp [mapInsert, hk, hlt, assocLookup]
      · simp [mapInsert, hk, hlt, assocLookup, ih]

theorem assocLookup_mapInsert_ne (m : EnvironmentVariables) {k k' : String}
    (v : String) (h : k' ≠ k) :
    assocLookup k' (mapInsert m k v) = assocLookup k' m := by
  induction m with
  | nil => simp [mapInsert, assocLookup, h]
  | cons kv rest ih =>
    obtain ⟨k0, v0⟩ := kv
    by_cases hk : k = k0
    · subst hk
      simp [mapInsert, assocLookup, h]
    · by_cases hlt : k < k0
      · simp [mapInsert, hk, hlt, assocLookup, h]
      · by_cases h0 : k' = k0
        · simp [mapInsert, hk, hlt, assocLookup, h0]
        · simp [mapInsert, hk, hlt, assocLookup, h0, ih]

theorem assocLookup_append (k : String) (l1 l2 : List (String × String)) :
    assocLookup k (l1 ++ l2) = (assocLookup k l1).or (assocLookup k l2) := by
  induction l1 with
  | nil => simp [assocLookup]
  | cons kv rest ih =>
    obtain ⟨k0, v0⟩ := kv
    by_cases hk : k = k0 <;> simp [assocLookup, hk, ih]

theorem assocLookup_eq_none_of_not_mem {k : String} {l : List (String × String)}
    (h : k ∉ l.map Prod.fst) : assocLookup k l = none := by
  induction l with
  | nil => rfl
  | cons kv rest ih =>
    simp only [List.map_cons, List.mem_cons] at h
    push_neg at h
    simp [assocLookup, h.1, ih h.2]

/-- Folding ordered-map insertion over a pair list: a key maps to its last
occurrence in the list, falling back to the initial map. -/
theorem assocLookup_foldl_mapInsert (k : String) (l : List (String × String))
    (m : EnvironmentVariables) :
    assocLookup k (l.foldl (fun acc kv => mapInsert acc kv.1 kv.2) m) =
      (assocLookup k l.reverse).or (assocLookup k m) := by
  induction l generalizing m with
  | nil => simp [assocLookup]
  | cons kv rest ih =>
    obtain ⟨k0, v0⟩ := kv
    rw [List.foldl_cons, ih, List.reverse_cons, assocLookup_append]
    by_cases hk : k = k0
    · subst hk
      simp [assocLookup, assocLookup_mapInsert_self, Option.or_assoc]
    · simp [assocLookup, hk, assocLookup_mapInsert_ne _ _ (fun hh => hk hh), Option.or_assoc]

/-- On a list with unique keys, lookup in the reversal agrees with lookup. -/
theorem assocLookup_reverse_of_nodup {l : List (String × String)}
    (h : (l.map Prod.fst).Nodup) (k : String) :
    assocLookup k l.reverse = assocLookup k l := by
  induction l with
  | nil => rfl
  | cons kv rest ih =>
    obtain ⟨k0, v0⟩ := kv
    simp only [List.map_cons, List.nodup_cons] at h
    rw [List.reverse_cons, assocLookup_append]
    by_cases hk : k = k0
    · subst hk
      rw [assocLookup_eq_none_of_not_mem (by simpa using h.1)]
      simp [assocLookup]
    · simp [assocLookup, hk, ih h.2]

/-- Lookup in the collected chain `provider ++ environment` (both with
unique keys): the environment's entry wins; the provider's entry is only the
fallback. -/
theorem assocLookup_collectVars_chain {pv env : List (String × String)}
    (hpv : (pv.map Prod.fst).Nodup) (henv : (env.map Prod.fst).Nodup) (k : String) :
    assocLookup k (collectVars (pv ++ env)) =
      (assocLookup k env).or (assocLookup k pv) := by
  rw [collectVars, assocLookup_foldl_mapInsert, List.reverse_append, assocLookup_append,
    assocLookup_reverse_of_nodup henv, assocLookup_reverse_of_nodup hpv]
  simp [assocLookup]

/-! ## Substring containment -/

/-- `t` occurs as a contiguous substring of `s`. -/
def containsSubstr (s t : String) : Prop :=
  ∃ a b : String, s = a ++ (t ++ b)

/-- The Nix expression of a plan with a pinned archive contains the
`fetchTarball` import form for that archive. -/
theorem gen_nix_contains_fetchTarball {p : BuildPlan} {archive : String}
    (h : p.nixpkgs_archive = some archive) :
    containsSubstr (gen_nix_text p)
      ("import (fetchTarball \"https://github.com/NixOS/nixpkgs/archive/" ++ archive ++ ".tar.gz\")") := by
  refine ⟨"\x7b \x7d:\n\nlet\n    pkgs = ",
    " \x7b \x7d;\nin with pkgs;\nbuildEnv \x7b\n    name = \"env\";\n    paths = [\n        " ++
      String.intercalate " " (p.pkgs.map Pkg.to_nix_string) ++ "\n    ];\n\x7d\n", ?_⟩
  simp only [gen_nix_text, h]
  simp only [String.append_assoc]

/-- The Nix expression of a plan without a pinned archive contains
`import <nixpkgs>`. -/
theorem gen_nix_contains_ambient {p : BuildPlan} (h : p.nixpkgs_archive = none) :
    containsSubstr (gen_nix_text p) "import <nixpkgs>" := by
  refine ⟨"\x7b \x7d:\n\nlet\n    pkgs = ",
    " \x7b \x7d;\nin with pkgs;\nbuildEnv \x7b\n    name = \"env\";\n    paths = [\n        " ++
      String.intercalate " " (p.pkgs.map Pkg.to_nix_string) ++ "\n    ];\n\x7d\n", ?_⟩
  simp only [gen_nix_text, h]
  simp only [String.append_assoc]

/-! ## Concrete fixtures for witnesses and counterexamples -/

/-- An app with an empty source tree. -/
def cApp0 : App := { source := "/app", files := [] }

/-- An empty ambient environment. -/
def cEnv0 : Environment := { variables' := [] }

/-- A provider that never detects and suggests nothing. -/
def cProvNo : Provider where
  name := "no"
  detect := fun _ _ => .ok false
  pkgs := fun _ _ => .ok []
  install_cmd := fun _ _ => .ok none
  suggested_build_cmd := fun _ _ => .ok none
  suggested_start_command := fun _ _ => .ok none
  get_environment_variables := fun _ _ => .ok []

/-- A provider that always detects. -/
def cProvYes : Provider := { cProvNo with name := "yes", detect := fun _ _ => .ok true }

/-- A provider whose `detect` fails; used to show that providers after the
first match are never consulted. -/
def cProvErr : Provider := { cProvNo with name := "err", detect := fun _ _ => .error "boom" }

/-- A detecting provider that mandates a value for `NPM_CONFIG_PRODUCTION`. -/
def cProvMerge : Provider :=
  { cProvNo with
    name := "merge"
    detect := fun _ _ => .ok true
    get_environment_variables := fun _ _ => .ok [("NPM_CONFIG_PRODUCTION", "prov-val")] }

/-- An ambient environment that also sets `NPM_CONFIG_PRODUCTION`. -/
def cEnvMerge : Environment := { variables' := [("NPM_CONFIG_PRODUCTION", "env-val")] }

/-- Builder for the variable-merge scenario. -/
def cBuilderMerge : AppBuilder where
  name := none
  app := cApp0
  environment := cEnvMerge
  options := AppBuilderOptions.empty
  provider := none

/-- The plan produced by `plan cBuilderMerge [cProvMerge]`: on the colliding
key the environment's value survived the merge. -/
def cPlanMerge : BuildPlan where
  version := "0.0.1"
  nixpkgs_archive := none
  pkgs := []
  install_cmd := none
  build_cmd := none
  start_cmd := none
  variables' := [("NPM_CONFIG_PRODUCTION", "env-val")]

/-- An app whose Procfile has a `web:` line followed by a second process
line. -/
def cAppMulti : App :=
  { source := "/app", files := [("Procfile", "web: node server.js\nworker: echo hi")] }

/-- Builder over `cAppMulti`. -/
def cBuilderMulti : AppBuilder where
  name := none
  app := cAppMulti
  environment := cEnv0
  options := AppBuilderOptions.empty
  provider := none

/-! ## C1 — variable-merge precedence -/

/-- C1, counterexample: the claim says the provider's value wins on a key
collision.  Running the planner with an ambient environment and a provider
that both set `NPM_CONFIG_PRODUCTION` yields the *environment's* value, not
the provider's: in `get_variables` the chain iterates the provider's
variables first and the environment's variables second, and collecting into
the map lets the later (environment) entry overwrite the earlier one. -/
theorem variables_merge_provider_wins_counterexample :
    AppBuilder.plan cBuilderMerge [cProvMerge] =
      .ok (cPlanMerge, { cBuilderMerge with provider := some cProvMerge }) ∧
    assocLookup "NPM_CONFIG_PRODUCTION" cPlanMerge.variables' = some "env-val" ∧
    assocLookup "NPM_CONFIG_PRODUCTION" [("NPM_CONFIG_PRODUCTION", "prov-val")] = some "prov-val" ∧
    assocLookup "NPM_CONFIG_PRODUCTION" cPlanMerge.variables' ≠ some "prov-val" :=
  ⟨rfl, rfl, rfl, by decide⟩

/-- C1 (amended): the plan's variables are the collection of the provider's
variables chained with the Environment snapshot, in which — on key
collision — the *environment's* value wins; the provider's value is only the
fallback for keys the environment does not set.  (The uniqueness hypotheses
state that the two variable maps have no duplicate keys, which holds for any
value of the source's map type.) -/
theorem variables_merge_environment_wins
    {b bb : AppBuilder} {providers : List Provider} {p : BuildPlan}
    {prov : Provider} {pv : EnvironmentVariables}
    (h : AppBuilder.plan b providers = .ok (p, bb))
    (hprov : bb.provider = some prov)
    (hpv : prov.get_environment_variables bb.app bb.environment = .ok pv)
    (hpvnodup : (pv.map Prod.fst).Nodup)
    (henvnodup : ((Environment.clone_variables b.environment).map Prod.fst).Nodup)
    (k : String) :
    assocLookup k p.variables' =
      (assocLookup k (Environment.clone_variables b.environment)).or (assocLookup k pv) := by
  obtain ⟨hdet, -, -, -, -, hvars, -, -⟩ := plan_ok_inv h
  have henv := (detect_ok_fields hdet).2.2.1
  simp only [AppBuilder.get_variables, hprov, hpv, ebind] at hvars
  rw [henv] at hvars
  injection hvars with hvars
  rw [← hvars]
  exact assocLookup_collectVars_chain hpvnodup henvnodup k

/-- C1 witness for the amended theorem, at the concrete collision input. -/
theorem variables_merge_environment_wins_witness :
    assocLookup "NPM_CONFIG_PRODUCTION" cPlanMerge.variables' =
      (assocLookup "NPM_CONFIG_PRODUCTION" (Environment.clone_variables cBuilderMerge.environment)).or
        (assocLookup "NPM_CONFIG_PRODUCTION" [("NPM_CONFIG_PRODUCTION", "prov-val")]) := by
  have h : AppBuilder.plan cBuilderMerge [cProvMerge] =
      .ok (cPlanMerge, { cBuilderMerge with provider := some cProvMerge }) := rfl
  have hpv : cProvMerge.get_environment_variables
      ({ cBuilderMerge with provider := some cProvMerge } : AppBuilder).app
      ({ cBuilderMerge with provider := some cProvMerge } : AppBuilder).environment =
      .ok [("NPM_CONFIG_PRODUCTION", "prov-val")] := rfl
  exact variables_merge_environment_wins h rfl hpv (by decide) (by decide) "NPM_CONFIG_PRODUCTION"

/-! ## C2 — Procfile parsing -/

/-- C2, counterexample: for a Procfile whose first line is
`web: node server.js` but which has a second line, the claim demands exactly
the first line's remainder (`node server.js`); the code instead removes
every `"web: "` occurrence from the *whole* contents and trims, returning
the multi-line remainder. -/
theorem parse_procfile_first_line_counterexample :
    AppBuilder.parse_procfile cBuilderMulti = .ok (some "node server.js\nworker: echo hi") ∧
    ("node server.js\nworker: echo hi" : String) ≠ "node server.js" :=
  ⟨rfl, by decide⟩

/-- C2 (amended): when a `Procfile` exists and its contents begin with
`"web: "` (equivalently: its first line begins with `"web: "`), the parser
returns the whole contents with every occurrence of `"web: "` removed,
whitespace-trimmed; when the contents do not begin with `"web: "`, or there
is no `Procfile`, it returns absent. -/
theorem parse_procfile_replaces_all (b : AppBuilder) :
    AppBuilder.parse_procfile b = .ok
      (match assocLookup "Procfile" b.app.files with
       | none => none
       | some contents =>
         if rustStartsWith contents "web: " then
           some (rustTrim (rustReplace contents "web: " ""))
         else none) := by
  cases hf : assocLookup "Procfile" b.app.files with
  | none => simp [AppBuilder.parse_procfile, App.includes_file, App.read_file, hf]
  | some contents =>
    by_cases hw : rustStartsWith contents "web: " <;>
      simp [AppBuilder.parse_procfile, App.includes_file, App.read_file, hf, ebind, hw]

/-! ## C3 — the Nix template -/

/-- The template exactly as claim C3 quotes it from §4.8: the head line
`\x7b \x7d:` immediately followed by the `let` line (no blank line) and
ending at the closing brace (no terminating newline), with `pkg_import`
and the space-joined packages substituted. -/
def claimed_gen_nix_text (plan : BuildPlan) : String :=
  let nixpkgs := String.intercalate " " (plan.pkgs.map Pkg.to_nix_string)
  let pkg_import :=
    match plan.nixpkgs_archive with
    | some archive =>
      "import (fetchTarball \"https://github.com/NixOS/nixpkgs/archive/" ++ archive ++ ".tar.gz\")"
    | none => "import <nixpkgs>"
  "\x7b \x7d:\nlet\n    pkgs = " ++ pkg_import ++ " \x7b \x7d;\nin with pkgs;\nbuildEnv \x7b\n    name = \"env\";\n    paths = [\n        " ++ nixpkgs ++ "\n    ];\n\x7d"

/-- A one-package plan used to compare the renderer with the claimed
template. -/
def cPlanNix : BuildPlan where
  version := "0.0.1"
  nixpkgs_archive := none
  pkgs := [{ name := "nodejs", override := none }]
  install_cmd := none
  build_cmd := none
  start_cmd := none
  variables' := []

/-- C3, counterexample: the renderer's output is not the claimed template
text — the source's `formatdoc!` template has a blank line between
`\x7b \x7d:` and `let`, and ends with a terminating newline after the
closing brace. -/
theorem gen_nix_template_counterexample :
    AppBuilder.gen_nix cPlanNix = .ok (gen_nix_text cPlanNix) ∧
    gen_nix_text cPlanNix ≠ claimed_gen_nix_text cPlanNix :=
  ⟨rfl, by decide⟩

/-- C3 (amended): for every plan, `gen_nix` returns exactly the §4.8
template amended with a blank line between `\x7b \x7d:` and `let` and a
terminating newline after the closing brace, with the import expression and
the plan-ordered, space-separated package renderings substituted. -/
theorem gen_nix_template (plan : BuildPlan) :
    AppBuilder.gen_nix plan = .ok
      ("\x7b \x7d:\n\nlet\n    pkgs = " ++
       (match plan.nixpkgs_archive with
        | some archive =>
          "import (fetchTarball \"https://github.com/NixOS/nixpkgs/archive/" ++ archive ++ ".tar.gz\")"
        | none => "import <nixpkgs>") ++
       " \x7b \x7d;\nin with pkgs;\nbuildEnv \x7b\n    name = \"env\";\n    paths = [\n        " ++
       String.intercalate " " (plan.pkgs.map Pkg.to_nix_string) ++
       "\n    ];\n\x7d\n") := rfl

/-! ## C4 — start-command precedence -/

/-- C4: the plan's start command is `custom_start_cmd`, else the
Procfile-derived command, else the active provider's suggestion, first hit
wins; in particular a present `custom_start_cmd` always wins.  The
hypotheses name the values produced by the Procfile parser and by the
active provider's `suggested_start_command` on the post-detection
builder. -/
theorem start_cmd_precedence
    {b bb : AppBuilder} {providers : List Provider} {p : BuildPlan}
    {proc sugg : Option String}
    (h : AppBuilder.plan b providers = .ok (p, bb))
    (hproc : AppBuilder.parse_procfile bb = .ok proc)
    (hsugg : (match bb.provider with
              | some prov => prov.suggested_start_command bb.app bb.environment
              | none => .ok none) = .ok sugg) :
    p.start_cmd = (b.options.custom_start_cmd.or proc).or sugg ∧
    (∀ s, b.options.custom_start_cmd = some s → p.start_cmd = some s) := by
  obtain ⟨hdet, -, -, -, hstart, -, -, -⟩ := plan_ok_inv h
  have hopts := (detect_ok_fields hdet).2.2.2
  simp only [AppBuilder.get_start_cmd, hproc, hsugg, ebind] at hstart
  injection hstart with hstart
  rw [hopts] at hstart
  refine ⟨hstart.symm, ?_⟩
  intro s hs
  rw [← hstart, hs]
  rfl

/-- An app whose Procfile declares `web: node server.js`. -/
def cAppProc : App := { source := "/app", files := [("Procfile", "web: node server.js")] }

/-- A detecting provider that suggests `npm start`. -/
def cProvStart : Provider :=
  { cProvNo with
    name := "start"
    detect := fun _ _ => .ok true
    suggested_start_command := fun _ _ => .ok (some "npm start") }

/-- Builder with a custom start command, a `web:` Procfile and a suggesting
provider (§8 scenario 2). -/
def cBuilderStart : AppBuilder where
  name := none
  app := cAppProc
  environment := cEnv0
  options := { AppBuilderOptions.empty with custom_start_cmd := some "./run" }
  provider := none

/-- The plan produced by `plan cBuilderStart [cProvStart]`. -/
def cPlanStart : BuildPlan where
  version := "0.0.1"
  nixpkgs_archive := none
  pkgs := []
  install_cmd := none
  build_cmd := none
  start_cmd := some "./run"
  variables' := []

/-- C4 witness: with all three sources present, the custom command wins. -/
theorem start_cmd_precedence_witness :
    cPlanStart.start_cmd = ((some "./run").or (some "node server.js")).or (some "npm start") ∧
    cPlanStart.start_cmd = some "./run" := by
  have h : AppBuilder.plan cBuilderStart [cProvStart] =
      .ok (cPlanStart, { cBuilderStart with provider := some cProvStart }) := rfl
  have hproc : AppBuilder.parse_procfile { cBuilderStart with provider := some cProvStart } =
      .ok (some "node server.js") := rfl
  have hsugg : (match ({ cBuilderStart with provider := some cProvStart } : AppBuilder).provider with
                | some prov => prov.suggested_start_command
                    ({ cBuilderStart with provider := some cProvStart } : AppBuilder).app
                    ({ cBuilderStart with provider := some cProvStart } : AppBuilder).environment
                | none => .ok none) = .ok (some "npm start") := rfl
  exact ⟨(start_cmd_precedence h hproc hsugg).1,
    (start_cmd_precedence h hproc hsugg).2 "./run" rfl⟩

/-! ## C5 — temp-directory lifecycle of `build` -/

/-- C5: on both exit paths of `do_build` with `out_dir` absent (copy
succeeds / copy fails), the temp directory is created and then immediately
deleted by the dying `TempDir` guard — *before* the source copy and the two
artifact writes — and no deletion event occurs afterwards, contradicting
the claim that the scoped directory serves as the destination and is
released on exit. -/
theorem do_build_temp_dir_dropped_before_use :
    do_build_events none true =
      [BuildEvent.createTempDir, BuildEvent.dropTempDir, BuildEvent.copySource,
       BuildEvent.writeEnvironmentNix, BuildEvent.writeDockerfile, BuildEvent.dockerBuild] ∧
    do_build_events none false =
      [BuildEvent.createTempDir, BuildEvent.dropTempDir, BuildEvent.copySource] :=
  ⟨rfl, rfl⟩

/-! ## C6 — archive pinning -/

/-- C6: with `pin_pkgs = true` the plan's archive is the pinned commit and
the rendered descriptor contains the `fetchTarball` import for it; with
`pin_pkgs = false` the archive is absent and the descriptor contains
`import <nixpkgs>`. -/
theorem pin_pkgs_archive
    {b bb : AppBuilder} {providers : List Provider} {p : BuildPlan}
    (h : AppBuilder.plan b providers = .ok (p, bb)) :
    (b.options.pin_pkgs = true →
      p.nixpkgs_archive = some "30d3d79b7d3607d56546dd2a6b49e156ba0ec634" ∧
      ∀ s, AppBuilder.gen_nix p = .ok s →
        containsSubstr s
          "import (fetchTarball \"https://github.com/NixOS/nixpkgs/archive/30d3d79b7d3607d56546dd2a6b49e156ba0ec634.tar.gz\")") ∧
    (b.options.pin_pkgs = false →
      p.nixpkgs_archive = none ∧
      ∀ s, AppBuilder.gen_nix p = .ok s → containsSubstr s "import <nixpkgs>") := by
  obtain ⟨-, -, -, -, -, -, -, harch⟩ := plan_ok_inv h
  constructor
  · intro hpin
    rw [hpin, if_pos rfl] at harch
    refine ⟨harch, ?_⟩
    intro s hs
    injection hs with hs
    rw [← hs]
    have hsub := gen_nix_contains_fetchTarball harch
    have heq :
        ("import (fetchTarball \"https://github.com/NixOS/nixpkgs/archive/" ++
          NIXPKGS_ARCHIVE ++ ".tar.gz\")") =
        "import (fetchTarball \"https://github.com/NixOS/nixpkgs/archive/30d3d79b7d3607d56546dd2a6b49e156ba0ec634.tar.gz\")" := by
      decide
    rw [heq] at hsub
    exact hsub
  · intro hpin
    rw [hpin] at harch
    simp only [Bool.false_eq_true, if_false] at harch
    refine ⟨harch, ?_⟩
    intro s hs
    injection hs with hs
    rw [← hs]
    exact gen_nix_contains_ambient harch

/-- Builder with `pin_pkgs` enabled and nothing else. -/
def cBuilderPin : AppBuilder where
  name := none
  app := cApp0
  environment := cEnv0
  options := { AppBuilderOptions.empty with pin_pkgs := true }
  provider := none

/-- The plan produced by `plan cBuilderPin []`. -/
def cPlanPin : BuildPlan where
  version := "0.0.1"
  nixpkgs_archive := some "30d3d79b7d3607d56546dd2a6b49e156ba0ec634"
  pkgs := []
  install_cmd := none
  build_cmd := none
  start_cmd := none
  variables' := []

/-- C6 witness at a concrete pinned run. -/
theorem pin_pkgs_archive_witness :
    cPlanPin.nixpkgs_archive = some "30d3d79b7d3607d56546dd2a6b49e156ba0ec634" ∧
    containsSubstr (gen_nix_text cPlanPin)
      "import (fetchTarball \"https://github.com/NixOS/nixpkgs/archive/30d3d79b7d3607d56546dd2a6b49e156ba0ec634.tar.gz\")" := by
  have h : AppBuilder.plan cBuilderPin [] = .ok (cPlanPin, cBuilderPin) := rfl
  have h2 := (pin_pkgs_archive h).1 rfl
  exact ⟨h2.1, h2.2 (gen_nix_text cPlanPin) rfl⟩

/-! ## C7 — package concatenation -/

/-- C7: the plan's packages are `options.custom_pkgs` followed by the
active provider's packages, orders preserved; with no active provider they
are exactly `options.custom_pkgs`. -/
theorem pkgs_concatenation
    {b bb : AppBuilder} {providers : List Provider} {p : BuildPlan}
    (h : AppBuilder.plan b providers = .ok (p, bb)) :
    (∀ prov ppkgs, bb.provider = some prov →
      prov.pkgs bb.app bb.environment = .ok ppkgs →
      p.pkgs = b.options.custom_pkgs ++ ppkgs) ∧
    (bb.provider = none → p.pkgs = b.options.custom_pkgs) := by
  obtain ⟨hdet, hpkgs, -⟩ := plan_ok_inv h
  have hopts := (detect_ok_fields hdet).2.2.2
  constructor
  · intro prov ppkgs hprov hpp
    simp only [AppBuilder.get_pkgs, hprov, hpp, ebind] at hpkgs
    injection hpkgs with hpkgs
    rw [← hpkgs, hopts]
  · intro hnone
    simp only [AppBuilder.get_pkgs, hnone] at hpkgs
    injection hpkgs with hpkgs
    rw [← hpkgs, hopts]

/-- A custom package passed via options. -/
def cPkgCurl : Pkg := { name := "curl", override := none }

/-- A provider-supplied package. -/
def cPkgNode : Pkg := { name := "nodejs", override := none }

/-- A detecting provider supplying one package. -/
def cProvPkgs : Provider :=
  { cProvNo with
    name := "pkgs"
    detect := fun _ _ => .ok true
    pkgs := fun _ _ => .ok [cPkgNode] }

/-- Builder with one custom package. -/
def cBuilderPkgs : AppBuilder where
  name := none
  app := cApp0
  environment := cEnv0
  options := { AppBuilderOptions.empty with custom_pkgs := [cPkgCurl] }
  provider := none

/-- The plan produced by `plan cBuilderPkgs [cProvPkgs]`. -/
def cPlanPkgs : BuildPlan where
  version := "0.0.1"
  nixpkgs_archive := none
  pkgs := [cPkgCurl, cPkgNode]
  install_cmd := none
  build_cmd := none
  start_cmd := none
  variables' := []

/-- C7 witness: custom packages precede the provider's packages. -/
theorem pkgs_concatenation_witness :
    cPlanPkgs.pkgs = [cPkgCurl] ++ [cPkgNode] := by
  have h : AppBuilder.plan cBuilderPkgs [cProvPkgs] =
      .ok (cPlanPkgs, { cBuilderPkgs with provider := some cProvPkgs }) := rfl
  exact (pkgs_concatenation h).1 cProvPkgs [cPkgNode] rfl rfl

/-! ## C8 — first-match detection -/

/-- C8: detection binds the first provider (in the caller-supplied order)
whose `detect` returns true, with the result independent of whatever
providers follow it — they are never consulted (the witness places a
provider whose `detect` *errors* after the match); and when no provider
detects, detection still succeeds with the builder unchanged, so the active
provider stays absent. -/
theorem detect_first_match_wins
    (b : AppBuilder) (ps1 : List Provider) (p : Provider) (ps2 : List Provider)
    (h1 : ∀ q ∈ ps1, q.detect b.app b.environment = .ok false)
    (h2 : p.detect b.app b.environment = .ok true) :
    AppBuilder.detect b (ps1 ++ p :: ps2) = .ok { b with provider := some p } ∧
    (∀ qs : List Provider, (∀ q ∈ qs, q.detect b.app b.environment = .ok false) →
      AppBuilder.detect b qs = .ok b) :=
  ⟨detect_first_match ps2 h1 h2, fun _ hqs => detect_of_all_false hqs⟩

/-- Builder with no bound provider, for the detection scenarios. -/
def cBuilderDet : AppBuilder where
  name := none
  app := cApp0
  environment := cEnv0
  options := AppBuilderOptions.empty
  provider := none

/-- C8 witness: with providers `[no, yes, err]` the second is bound and the
erroring third is never consulted; and an all-false list leaves the builder
unchanged. -/
theorem detect_first_match_wins_witness :
    AppBuilder.detect cBuilderDet [cProvNo, cProvYes, cProvErr] =
      .ok { cBuilderDet with provider := some cProvYes } ∧
    (∀ qs : List Provider,
      (∀ q ∈ qs, q.detect cBuilderDet.app cBuilderDet.environment = .ok false) →
      AppBuilder.detect cBuilderDet qs = .ok cBuilderDet) :=
  detect_first_match_wins cBuilderDet [cProvNo] cProvYes [cProvErr]
    (by intro q hq; rw [List.mem_singleton] at hq; subst hq; rfl) rfl

/-! ## C9 — detection never clears a bound provider -/

/-- C9: `detect` never clears a previously bound provider: when the builder
already holds `some p` and no provider in the list detects, `detect`
returns the builder unchanged, and a subsequent `plan` on it still runs
with active provider `p`. -/
theorem detect_preserves_bound_provider
    (b : AppBuilder) (p : Provider) (ps : List Provider)
    (hp : b.provider = some p)
    (hall : ∀ q ∈ ps, q.detect b.app b.environment = .ok false) :
    AppBuilder.detect b ps = .ok b ∧
    (∀ pl bb, AppBuilder.plan b ps = .ok (pl, bb) → bb.provider = some p) := by
  refine ⟨detect_of_all_false hall, ?_⟩
  intro pl bb hplan
  obtain ⟨hdet, -⟩ := plan_ok_inv hplan
  rw [detect_of_all_false hall] at hdet
  injection hdet with hdet
  rw [← hdet]
  exact hp

/-- Builder that already holds a bound provider. -/
def cBuilderBound : AppBuilder where
  name := none
  app := cApp0
  environment := cEnv0
  options := AppBuilderOptions.empty
  provider := some cProvYes

/-- C9 witness: a non-matching detection pass keeps the bound provider. -/
theorem detect_preserves_bound_provider_witness :
    AppBuilder.detect cBuilderBound [cProvNo] = .ok cBuilderBound ∧
    (∀ pl bb, AppBuilder.plan cBuilderBound [cProvNo] = .ok (pl, bb) →
      bb.provider = some cProvYes) :=
  detect_preserves_bound_provider cBuilderBound cProvYes [cProvNo] rfl
    (by intro q hq; rw [List.mem_singleton] at hq; subst hq; rfl)

/-! ## C10 — totality of the renderers -/

/-- C10: both renderers are total — for every plan they return `Ok` with a
string; their error result is unreachable (in the source neither function
contains a fallible operation). -/
theorem renderers_total (plan : BuildPlan) :
    (∃ s, AppBuilder.gen_nix plan = .ok s) ∧
    (∃ t, AppBuilder.gen_dockerfile plan = .ok t) :=
  ⟨⟨gen_nix_text plan, rfl⟩, ⟨gen_dockerfile_text plan, rfl⟩⟩

end Nixpacks
